import Mathlib

set_option maxHeartbeats 1000000

namespace Vassistant

/-! Shallow embedding of the vassistant-backend request-dispatch and
entity-enrichment core: the financial package lambda handlers
(src/unnamed/part_005) and the regexp router (src/api/api.go).
Store calls are modelled by explicit function parameters returning
Except values; values are embedded after unmarshalling, so the
attributevalue layer is identity here. -/

/-- User struct for the vassistant-users table (part_005 lines 26-31). -/
structure User where
  userID : String
  username : String
  showableName : String
  role : String
deriving DecidableEq

/-- The Go zero value of the User struct: every field is the empty string.
Fields tagged dynamodbav:"-" hold this value right after unmarshalling. -/
def User.zero : User := ⟨"", "", "", ""⟩

/-- Participant struct (part_005 lines 19-23). The share field carries the
json.Number payload as its underlying string. The embedded User view is
excluded from store marshalling. -/
structure Participant where
  userID : String
  share : String
  user : User
deriving DecidableEq

/-- FinancialExpense struct (part_005 lines 34-49). Amount carries the
json.Number payload as its underlying string. PaidByUser and
CreatedByUser are excluded from store marshalling. -/
structure FinancialExpense where
  expenseID : String
  groupID : String
  title : String
  category : String
  amount : String
  dateTime : String
  paidBy : String
  imageURL : String
  splitType : String
  participants : List Participant
  paidByUser : User
  createdBy : String
  createdAt : String
  createdByUser : User
deriving DecidableEq

/-- GroupMember struct (part_005 lines 52-56). -/
structure GroupMember where
  userID : String
  groupID : String
  groupName : String
deriving DecidableEq

/-- Go map read m[k] returning the value and an ok flag; none models ok = false. -/
def lookupString (m : List (String × String)) (k : String) : Option String :=
  (m.find? (fun p => p.1 == k)).map (fun p => p.2)

/-- Insertion into the userIds set (a Go map used as a set, part_005 line 98):
deterministic first-insertion order stands in for the Go map key set. -/
def insertId (s : List String) (id : String) : List String :=
  if id ∈ s then s else s ++ [id]

/-- The id-collection step for one expense (part_005 lines 99-107): paidBy is
added unconditionally, createdBy only when non-empty, and every participant
userId unconditionally. -/
def expenseUserIds (s : List String) (e : FinancialExpense) : List String :=
  let s1 := insertId s e.paidBy
  let s2 := if e.createdBy ≠ "" then insertId s1 e.createdBy else s1
  e.participants.foldl (fun acc p => insertId acc p.userID) s2

/-- Collect all unique user ids from all expenses (part_005 lines 97-107). -/
def collectUserIds (expenses : List FinancialExpense) : List String :=
  expenses.foldl expenseUserIds []

/-- The userId to User map built from the BatchGetItem responses
(part_005 lines 134-145): later items overwrite earlier ones, so lookup
finds the last item with the given key. -/
def userMapLookup (userItems : List User) (id : String) : Option User :=
  userItems.reverse.find? (fun u => u.userID == id)

/-- Population of one participant (part_005 lines 155-159): the user view is
set only when the userId is found in the map. -/
def enrichParticipant (lookup : String → Option User) (p : Participant) : Participant :=
  match lookup p.userID with
  | some u => { p with user := u }
  | none => p

/-- Population of one expense (part_005 lines 148-160): PaidByUser and
CreatedByUser are set only on a map hit, and each participant view is
populated in place; every other field is untouched. -/
def enrichExpense (lookup : String → Option User) (e : FinancialExpense) : FinancialExpense :=
  { e with
    paidByUser :=
      match lookup e.paidBy with
      | some u => u
      | none => e.paidByUser
    createdByUser :=
      match lookup e.createdBy with
      | some u => u
      | none => e.createdByUser
    participants := e.participants.map (enrichParticipant lookup) }

/-- The populate loop over all expenses (part_005 lines 148-160). -/
def enrichExpenses (lookup : String → Option User) (es : List FinancialExpense) :
    List FinancialExpense :=
  es.map (enrichExpense lookup)

/-- Build the user map from the fetched items and populate the expenses
(part_005 lines 133-160). -/
def populateUserDetails (userItems : List User) (expenses : List FinancialExpense) :
    List FinancialExpense :=
  enrichExpenses (userMapLookup userItems) expenses

/-- The DynamoDB QueryInput fields the group-expenses handler sets
(part_005 lines 70-78): attrValue is the single expression attribute value. -/
structure QueryInput where
  tableName : String
  indexName : Option String
  keyConditionExpression : String
  attrValue : String
  scanIndexForward : Option Bool
  projectionExpression : Option String
deriving DecidableEq

/-- The query input built by GetGroupExpensesHandler (part_005 lines 70-78):
index groupId-dateTime-index with ScanIndexForward explicitly false. -/
def groupExpensesQueryInput (groupId : String) : QueryInput where
  tableName := "splitter-expenses"
  indexName := some "groupId-dateTime-index"
  keyConditionExpression := "groupId = :groupId"
  attrValue := groupId
  scanIndexForward := some false
  projectionExpression := none

/-- Outcome of the group-expenses handler: an error response built by
common.CreateErrorResponse, or a 200 whose body is the marshalled list. -/
inductive ExpensesResult where
  | errorResponse (status : Nat) (message : String)
  | ok (body : List FinancialExpense)
deriving DecidableEq

/-- GetGroupExpensesHandler (part_005 lines 60-175). The store is passed in as
two functions standing for the Query and BatchGetItem calls on the injected
client; the second component of the result records the key set of each
BatchGetItem call that was issued. Per-item unmarshal failures cannot occur
in this typed embedding, and the final json.Marshal is kept structured. -/
def getGroupExpensesHandler
    (pathParameters : List (String × String))
    (query : QueryInput → Except Unit (List FinancialExpense))
    (batchGetUsers : List String → Except Unit (List User)) :
    ExpensesResult × List (List String) :=
  match lookupString pathParameters "groupId" with
  | none => (.errorResponse 400 "Group ID is missing", [])
  | some groupId =>
    if groupId = "" then (.errorResponse 400 "Group ID is missing", [])
    else
      match query (groupExpensesQueryInput groupId) with
      | .error _ => (.errorResponse 500 "Internal server error", [])
      | .ok expenses =>
        let keys := collectUserIds expenses
        if 0 < keys.length then
          match batchGetUsers keys with
          | .error _ => (.errorResponse 500 "Internal server error", [keys])
          | .ok userItems => (.ok (populateUserDetails userItems expenses), [keys])
        else
          (.ok expenses, [])

/-- The DynamoDB QueryInput fields GetGroupsHandler sets (part_005 lines 569-576). -/
structure GroupsQueryInput where
  tableName : String
  keyConditionExpression : String
  userIdValue : String
  projectionExpression : Option String
deriving DecidableEq

/-- The query input built by GetGroupsHandler (part_005 lines 569-576). -/
def groupsQueryInput (sub : String) : GroupsQueryInput where
  tableName := "splitter-group-members"
  keyConditionExpression := "userId = :userId"
  userIdValue := sub
  projectionExpression := some "userId, groupId, groupName"

/-- Outcome of GetGroupsHandler. -/
inductive GroupsResult where
  | errorResponse (status : Nat) (message : String)
  | ok (body : List GroupMember)
deriving DecidableEq

/-- GetGroupsHandler (part_005 lines 556-607). The claims argument is none
when the authorizer claims entry is absent or not a map, which is the only
case the Go code answers with 403; a claims entry whose sub key is absent
or not a string yields the empty string via the discarded type-assertion
flag, modelled by getD with the empty-string default. -/
def getGroupsHandler
    (claims : Option (List (String × String)))
    (query : GroupsQueryInput → Except Unit (List GroupMember)) : GroupsResult :=
  match claims with
  | none => .errorResponse 403 "Unauthorized: Invalid claims format"
  | some cl =>
    let sub := (lookupString cl "sub").getD ""
    match query (groupsQueryInput sub) with
    | .error _ => .errorResponse 500 "Internal server error"
    | .ok groupMembers => .ok groupMembers

/-- Outcome of PostGroupExpenseHandler: an error response, or a 201 created
whose stored item and echoed body are the same expense value. -/
inductive PostResult where
  | errorResponse (status : Nat) (message : String)
  | created (expense : FinancialExpense)
deriving DecidableEq

/-- PostGroupExpenseHandler (part_005 lines 488-554). The claims argument is
as in getGroupsHandler; body is none when json.Unmarshal of the request
body fails; newUUID and now stand for uuid.New().String() and the
RFC3339-formatted current time; put stands for the PutItem call. The four
overwritten fields (lines 515-518) are set before the put and the same
value is echoed in the 201 body. -/
def postGroupExpenseHandler
    (claims : Option (List (String × String)))
    (pathParameters : List (String × String))
    (body : Option FinancialExpense)
    (newUUID now : String)
    (put : FinancialExpense → Except Unit Unit) : PostResult :=
  match claims with
  | none => .errorResponse 403 "Unauthorized: Invalid claims format"
  | some cl =>
    let sub := (lookupString cl "sub").getD ""
    match lookupString pathParameters "groupId" with
    | none => .errorResponse 400 "Group ID is missing"
    | some groupId =>
      if groupId = "" then .errorResponse 400 "Group ID is missing"
      else
        match body with
        | none => .errorResponse 400 "Invalid request body"
        | some expense =>
          let e := { expense with
            expenseID := newUUID
            groupID := groupId
            createdBy := sub
            createdAt := now }
          match put e with
          | .error _ => .errorResponse 500 "Internal server error"
          | .ok _ => .created e

/-- A compiled Go regexp as the router uses it (api/api.go): names models
SubexpNames() (entry 0 is always the empty string, standing for the unnamed
whole-match group), and findStringSubmatch models FindStringSubmatch on the
pattern compiled from the anchored form; the empty list encodes the nil
slice returned on no match, and on a match the slice has one entry per
subexpression, entry 0 being the whole match. -/
structure GoRegexp where
  names : List String
  findStringSubmatch : String → List String

/-- The APIGatewayProxyRequest fields the router touches. -/
structure APIRequest where
  httpMethod : String
  path : String
  pathParameters : List (String × String)
  body : String

/-- The APIGatewayProxyResponse fields the router produces; the JSON error
wrapper of common.CreateErrorResponse is abstracted to the message. -/
structure APIResponse where
  statusCode : Nat
  body : String
deriving DecidableEq

/-- common.CreateErrorResponse as the router sees it. -/
def createErrorResponse (statusCode : Nat) (message : String) : APIResponse :=
  ⟨statusCode, message⟩

/-- Route struct (api/api.go lines 14-18). -/
structure Route where
  method : String
  path : GoRegexp
  handler : APIRequest → APIResponse

/-- AddRoute (api/api.go lines 31-38): appends the route, so registration
order is list order. -/
def addRoute (r : List Route) (method : String) (path : GoRegexp)
    (handler : APIRequest → APIResponse) : List Route :=
  r ++ [⟨method, path, handler⟩]

/-- A router built from a sequence of registrations, each applied with
AddRoute to the empty router of NewRouter. -/
def registerAll (regs : List (String × GoRegexp × (APIRequest → APIResponse))) :
    List Route :=
  regs.foldl (fun r reg => addRoute r reg.1 reg.2.1 reg.2.2) []

/-- The path-parameter extraction loop of Serve (api/api.go lines 46-52):
iterate over SubexpNames with the index, skipping index 0 and unnamed
groups, writing name to matches[i] into the Go map; a later write to the
same name overwrites, which the cons plus first-hit lookup models. -/
def extractParamsAux (ms : List String) :
    Nat → List String → List (String × String) → List (String × String)
  | _, [], m => m
  | i, n :: rest, m =>
    extractParamsAux ms (i + 1) rest
      (if i ≠ 0 ∧ n ≠ "" then (n, ms.getD i "") :: m else m)

/-- Path parameters built from the subexpression names and the submatches. -/
def extractParams (names ms : List String) : List (String × String) :=
  extractParamsAux ms 0 names []

/-- Serve (api/api.go lines 41-60): first route in order whose method equals
the request method and whose pattern matches wins; otherwise 404. -/
def serve (routes : List Route) (request : APIRequest) : APIResponse :=
  match routes with
  | [] => createErrorResponse 404 "Not Found"
  | route :: rest =>
    if route.method = request.httpMethod then
      let ms := route.path.findStringSubmatch request.path
      if 0 < ms.length then
        route.handler
          { request with pathParameters := extractParams route.path.names ms }
      else
        serve rest request
    else
      serve rest request

/-- A route accepts a request when the verbs agree and the pattern matches. -/
def routeMatches (route : Route) (request : APIRequest) : Prop :=
  route.method = request.httpMethod ∧
    0 < (route.path.findStringSubmatch request.path).length

instance (route : Route) (request : APIRequest) : Decidable (routeMatches route request) :=
  inferInstanceAs (Decidable (_ ∧ _))

/-- The store-persisted projection of a participant: userId and share. -/
def Participant.core (p : Participant) : String × String := (p.userID, p.share)

/-- The store-persisted projection of an expense: everything except the
three attached user views (which carry dynamodbav:"-"). -/
def FinancialExpense.core (e : FinancialExpense) :
    String × String × String × String × String × String × String × String ×
      String × String × String × List (String × String) :=
  (e.expenseID, e.groupID, e.title, e.category, e.amount, e.dateTime, e.paidBy,
   e.imageURL, e.splitType, e.createdBy, e.createdAt,
   e.participants.map Participant.core)

/-! Helper lemmas about the enrichment pass. -/

lemma enrichParticipant_core (L : String → Option User) (p : Participant) :
    (enrichParticipant L p).core = p.core := by
  unfold enrichParticipant
  cases L p.userID <;> rfl

lemma enrichParticipant_userID (L : String → Option User) (p : Participant) :
    (enrichParticipant L p).userID = p.userID := by
  unfold enrichParticipant
  cases L p.userID <;> rfl

lemma enrichExpense_core (L : String → Option User) (e : FinancialExpense) :
    (enrichExpense L e).core = e.core := by
  unfold enrichExpense FinancialExpense.core
  simp only [List.map_map]
  have hps : e.participants.map (Participant.core ∘ enrichParticipant L) =
      e.participants.map Participant.core :=
    List.map_congr_left (fun p _ => enrichParticipant_core L p)
  rw [hps]

lemma enrichExpenses_map_core (L : String → Option User) (es : List FinancialExpense) :
    (enrichExpenses L es).map FinancialExpense.core = es.map FinancialExpense.core := by
  unfold enrichExpenses
  rw [List.map_map]
  exact List.map_congr_left (fun e _ => enrichExpense_core L e)

lemma userMapLookup_eq_some {users : List User} {id : String} {u : User}
    (h : userMapLookup users id = some u) : u ∈ users ∧ u.userID = id := by
  unfold userMapLookup at h
  have hmem := List.mem_of_find?_eq_some h
  have hb := List.find?_some h
  exact ⟨List.mem_reverse.mp hmem, by simpa using hb⟩

lemma enrichExpense_paidByUser (L : String → Option User) (e : FinancialExpense)
    (hz : e.paidByUser = User.zero) :
    (enrichExpense L e).paidByUser = (L e.paidBy).getD User.zero := by
  unfold enrichExpense
  cases h : L e.paidBy <;> simp [h, hz]

lemma enrichExpense_createdByUser (L : String → Option User) (e : FinancialExpense)
    (hz : e.createdByUser = User.zero) :
    (enrichExpense L e).createdByUser = (L e.createdBy).getD User.zero := by
  unfold enrichExpense
  cases h : L e.createdBy <;> simp [h, hz]

lemma enrichParticipant_user (L : String → Option User) (p : Participant)
    (hz : p.user = User.zero) :
    (enrichParticipant L p).user = (L p.userID).getD User.zero := by
  unfold enrichParticipant
  cases h : L p.userID <;> simp [h, hz]

lemma enrichParticipant_idem (L : String → Option User) (p : Participant) :
    enrichParticipant L (enrichParticipant L p) = enrichParticipant L p := by
  unfold enrichParticipant
  cases h : L p.userID <;> simp [h]

lemma enrichExpense_idem (L : String → Option User) (e : FinancialExpense) :
    enrichExpense L (enrichExpense L e) = enrichExpense L e := by
  unfold enrichExpense
  cases h1 : L e.paidBy <;> cases h2 : L e.createdBy <;>
    simp [h1, h2, List.map_map] <;>
    exact fun p _ => enrichParticipant_idem L p

/-- Claim C1: enriching a freshly unmarshalled expense list with a batch-fetch
result populates exactly the user-view fields whose referenced id the user
map resolves, each with the corresponding fetched view (non-zero because
fetched users carry their non-empty key), leaves the views of unresolved ids
as the zero-value User, and drops or reorders no expense, no participant, and
no persisted field. -/
theorem enrichment_completeness
    (users : List User) (es : List FinancialExpense)
    (hz : ∀ e ∈ es, e.paidByUser = User.zero ∧ e.createdByUser = User.zero ∧
      ∀ p ∈ e.participants, p.user = User.zero)
    (hu : ∀ u ∈ users, u.userID ≠ "") :
    (populateUserDetails users es).map FinancialExpense.core =
        es.map FinancialExpense.core ∧
    populateUserDetails users es = es.map (enrichExpense (userMapLookup users)) ∧
    (∀ e ∈ es,
      (enrichExpense (userMapLookup users) e).paidByUser =
          (userMapLookup users e.paidBy).getD User.zero ∧
      (enrichExpense (userMapLookup users) e).createdByUser =
          (userMapLookup users e.createdBy).getD User.zero ∧
      (enrichExpense (userMapLookup users) e).participants =
          e.participants.map (enrichParticipant (userMapLookup users)) ∧
      ∀ p ∈ e.participants,
        (enrichParticipant (userMapLookup users) p).user =
            (userMapLookup users p.userID).getD User.zero) ∧
    (∀ id u, userMapLookup users id = some u → u ≠ User.zero) := by
  refine ⟨enrichExpenses_map_core _ es, rfl, ?_, ?_⟩
  · intro e he
    obtain ⟨hp, hc, hps⟩ := hz e he
    exact ⟨enrichExpense_paidByUser _ e hp, enrichExpense_createdByUser _ e hc,
      rfl, fun p hpmem => enrichParticipant_user _ p (hps p hpmem)⟩
  · intro id u h
    obtain ⟨hmem, hkey⟩ := userMapLookup_eq_some h
    intro hzero
    apply hu u hmem
    rw [hzero]
    rfl

/-- A sample fetched user for concrete instantiations. -/
def sampleUser : User := ⟨"u1", "alice", "Alice", "MEMBER"⟩

/-- A sample freshly unmarshalled expense referencing ids u1 and u2. -/
def sampleExpense : FinancialExpense :=
  ⟨"e1", "g1", "Dinner", "FOOD", "100", "2026-01-01T00:00:00Z", "u1", "",
   "PERCENTAGE", [⟨"u1", "50", User.zero⟩, ⟨"u2", "50", User.zero⟩],
   User.zero, "u2", "2026-01-02T00:00:00Z", User.zero⟩

/-- Witness for C1: the fetch resolves u1 but not u2 on a concrete expense. -/
theorem enrichment_completeness_witness :
    (populateUserDetails [sampleUser] [sampleExpense]).map FinancialExpense.core =
        [sampleExpense].map FinancialExpense.core ∧
    (enrichExpense (userMapLookup [sampleUser]) sampleExpense).paidByUser =
        (userMapLookup [sampleUser] sampleExpense.paidBy).getD User.zero :=
  ⟨(enrichment_completeness [sampleUser] [sampleExpense]
      (by decide) (by decide)).1,
   ((enrichment_completeness [sampleUser] [sampleExpense]
      (by decide) (by decide)).2.2.1 sampleExpense (by simp)).1⟩

/-- Claim C9: the enrichment pass is idempotent: populating the expenses a
second time from the same fetched user items changes nothing. -/
theorem enrichment_idempotent (users : List User) (es : List FinancialExpense) :
    populateUserDetails users (populateUserDetails users es) =
      populateUserDetails users es := by
  unfold populateUserDetails enrichExpenses
  rw [List.map_map]
  exact List.map_congr_left (fun e _ => enrichExpense_idem (userMapLookup users) e)

/-! Lemmas about the collected user-id set. -/

/-- An expense refers to an id exactly when the id is its paidBy, its
non-empty createdBy, or the userId of one of its participants: the shape of
the collection loop in part_005 lines 99-107, where only createdBy is
guarded against the empty string. -/
def refersTo (e : FinancialExpense) (a : String) : Prop :=
  a = e.paidBy ∨ (a = e.createdBy ∧ e.createdBy ≠ "") ∨ ∃ p ∈ e.participants, a = p.userID

lemma mem_insertId {s : List String} {id a : String} :
    a ∈ insertId s id ↔ a ∈ s ∨ a = id := by
  unfold insertId
  by_cases h : id ∈ s
  · simp only [if_pos h]
    constructor
    · exact Or.inl
    · rintro (ha | rfl)
      · exact ha
      · exact h
  · simp [if_neg h]

lemma mem_foldl_insertId (ps : List Participant) :
    ∀ (s : List String) (a : String),
      a ∈ ps.foldl (fun acc p => insertId acc p.userID) s ↔
        a ∈ s ∨ ∃ p ∈ ps, a = p.userID := by
  induction ps with
  | nil => intro s a; simp
  | cons p rest ih =>
    intro s a
    rw [List.foldl_cons, ih]
    simp only [mem_insertId, List.exists_mem_cons_iff]
    tauto

lemma mem_expenseUserIds {s : List String} {e : FinancialExpense} {a : String} :
    a ∈ expenseUserIds s e ↔ a ∈ s ∨ refersTo e a := by
  unfold expenseUserIds refersTo
  rw [mem_foldl_insertId]
  by_cases h : e.createdBy = "" <;> simp [h, mem_insertId] <;> tauto

lemma mem_foldl_expenseUserIds (es : List FinancialExpense) :
    ∀ (s : List String) (a : String),
      a ∈ es.foldl expenseUserIds s ↔ a ∈ s ∨ ∃ e ∈ es, refersTo e a := by
  induction es with
  | nil => intro s a; simp
  | cons e rest ih =>
    intro s a
    rw [List.foldl_cons, ih]
    simp only [mem_expenseUserIds, List.exists_mem_cons_iff]
    tauto

lemma mem_collectUserIds {es : List FinancialExpense} {a : String} :
    a ∈ collectUserIds es ↔ ∃ e ∈ es, refersTo e a := by
  unfold collectUserIds
  rw [mem_foldl_expenseUserIds]
  simp

lemma nodup_insertId {s : List String} {id : String} (h : s.Nodup) :
    (insertId s id).Nodup := by
  unfold insertId
  by_cases hm : id ∈ s
  · rw [if_pos hm]; exact h
  · rw [if_neg hm]
    simp [List.nodup_append, h, hm]

lemma nodup_foldl_insertId (ps : List Participant) :
    ∀ s : List String, s.Nodup →
      (ps.foldl (fun acc p => insertId acc p.userID) s).Nodup := by
  induction ps with
  | nil => intro s h; exact h
  | cons p rest ih =>
    intro s h
    rw [List.foldl_cons]
    exact ih _ (nodup_insertId h)

lemma nodup_expenseUserIds {s : List String} {e : FinancialExpense} (h : s.Nodup) :
    (expenseUserIds s e).Nodup := by
  unfold expenseUserIds
  apply nodup_foldl_insertId
  by_cases hc : e.createdBy ≠ ""
  · rw [if_pos hc]
    exact nodup_insertId (nodup_insertId h)
  · rw [if_neg hc]
    exact nodup_insertId h

lemma nodup_foldl_expenseUserIds (es : List FinancialExpense) :
    ∀ s : List String, s.Nodup → (es.foldl expenseUserIds s).Nodup := by
  induction es with
  | nil => intro s h; exact h
  | cons e rest ih =>
    intro s h
    rw [List.foldl_cons]
    exact ih _ (nodup_expenseUserIds h)

lemma nodup_collectUserIds (es : List FinancialExpense) : (collectUserIds es).Nodup :=
  nodup_foldl_expenseUserIds es [] List.nodup_nil

/-- An expense whose paidBy is the empty string, as stored records may be. -/
def emptyPaidByExpense : FinancialExpense :=
  ⟨"e9", "g1", "Old", "FOOD", "10", "2025-01-01T00:00:00Z", "", "", "PERCENTAGE",
   [], User.zero, "", "", User.zero⟩

/-- Claim C3 counterexample: for an expense whose paidBy is empty, the
collection loop still inserts the empty string (only createdBy is guarded),
so the id set is not restricted to non-empty ids and the handler submits a
batched fetch whose key set contains the empty string. -/
theorem batched_fetch_id_set_cex :
    "" ∈ collectUserIds [emptyPaidByExpense] ∧
    (getGroupExpensesHandler [("groupId", "g1")]
        (fun _ => .ok [emptyPaidByExpense]) (fun _ => .ok [])).2 = [[""]] := by
  constructor
  · decide
  · rfl

/-- Claim C3 amended: the id set submitted to the batched fetch is duplicate
free and contains exactly every paidBy (even when empty), every non-empty
createdBy, and every participant userId (even when empty) of the queried
expenses; the handler issues exactly one batched fetch when that set is
non-empty and none when it is empty. -/
theorem batched_fetch_id_set
    (pp : List (String × String)) (gid : String)
    (query : QueryInput → Except Unit (List FinancialExpense))
    (batchGetUsers : List String → Except Unit (List User))
    (es : List FinancialExpense)
    (hpp : lookupString pp "groupId" = some gid) (hgid : gid ≠ "")
    (hq : query (groupExpensesQueryInput gid) = .ok es) :
    (collectUserIds es).Nodup ∧
    (∀ id, id ∈ collectUserIds es ↔ ∃ e ∈ es, refersTo e id) ∧
    (getGroupExpensesHandler pp query batchGetUsers).2 =
      (if 0 < (collectUserIds es).length then [collectUserIds es] else []) := by
  refine ⟨nodup_collectUserIds es, fun id => mem_collectUserIds, ?_⟩
  by_cases h : 0 < (collectUserIds es).length
  · rw [if_pos h]
    cases hb : batchGetUsers (collectUserIds es) <;>
      simp [getGroupExpensesHandler, hpp, hgid, hq, h, hb]
  · rw [if_neg h]
    simp [getGroupExpensesHandler, hpp, hgid, hq, h]

/-- Witness for the amended C3 at a concrete request and store. -/
theorem batched_fetch_id_set_witness :
    (collectUserIds [sampleExpense]).Nodup ∧
    (getGroupExpensesHandler [("groupId", "g1")]
        (fun _ => .ok [sampleExpense]) (fun _ => .ok [])).2 =
      (if 0 < (collectUserIds [sampleExpense]).length
        then [collectUserIds [sampleExpense]] else []) :=
  ⟨(batched_fetch_id_set [("groupId", "g1")] "g1" (fun _ => .ok [sampleExpense])
      (fun _ => .ok []) [sampleExpense] rfl (by decide) rfl).1,
   (batched_fetch_id_set [("groupId", "g1")] "g1" (fun _ => .ok [sampleExpense])
      (fun _ => .ok []) [sampleExpense] rfl (by decide) rfl).2.2⟩

/-- Claim C6: when the single batched user fetch itself fails, the whole
request fails with the 500 error response and no body is produced; the log
shows the one fetch call that was issued. -/
theorem batched_fetch_failure_fatal
    (pp : List (String × String)) (gid : String)
    (query : QueryInput → Except Unit (List FinancialExpense))
    (batchGetUsers : List String → Except Unit (List User))
    (es : List FinancialExpense)
    (hpp : lookupString pp "groupId" = some gid) (hgid : gid ≠ "")
    (hq : query (groupExpensesQueryInput gid) = .ok es)
    (hne : 0 < (collectUserIds es).length)
    (hb : batchGetUsers (collectUserIds es) = .error ()) :
    getGroupExpensesHandler pp query batchGetUsers =
      (.errorResponse 500 "Internal server error", [collectUserIds es]) := by
  simp [getGroupExpensesHandler, hpp, hgid, hq, hne, hb]

/-- Witness for C6 at a concrete request whose batched fetch errors. -/
theorem batched_fetch_failure_fatal_witness :
    getGroupExpensesHandler [("groupId", "g1")]
        (fun _ => .ok [sampleExpense]) (fun _ => .error ()) =
      (.errorResponse 500 "Internal server error", [collectUserIds [sampleExpense]]) :=
  batched_fetch_failure_fatal [("groupId", "g1")] "g1"
    (fun _ => .ok [sampleExpense]) (fun _ => .error ()) [sampleExpense]
    rfl (by decide) rfl (by decide) rfl

/-- Claim C5: the group-expenses handler builds its range query with
ScanIndexForward explicitly false, and passes the store result through in
order: with a descending store result of a later record before an earlier
one, the response body keeps the later record first and every persisted
field of every record in place. -/
theorem descending_order_passthrough
    (pp : List (String × String)) (gid : String)
    (query : QueryInput → Except Unit (List FinancialExpense))
    (batchGetUsers : List String → Except Unit (List User))
    (users : List User) (e2 e1 : FinancialExpense) (rest : List FinancialExpense)
    (hpp : lookupString pp "groupId" = some gid) (hgid : gid ≠ "")
    (hq : query (groupExpensesQueryInput gid) = .ok (e2 :: e1 :: rest))
    (hb : batchGetUsers (collectUserIds (e2 :: e1 :: rest)) = .ok users) :
    (groupExpensesQueryInput gid).scanIndexForward = some false ∧
    ∃ b2 b1 brest,
      (getGroupExpensesHandler pp query batchGetUsers).1 = .ok (b2 :: b1 :: brest) ∧
      b2.core = e2.core ∧ b1.core = e1.core ∧
      brest.map FinancialExpense.core = rest.map FinancialExpense.core := by
  constructor
  · rfl
  · have hmem : e2.paidBy ∈ collectUserIds (e2 :: e1 :: rest) :=
      mem_collectUserIds.mpr ⟨e2, by simp, Or.inl rfl⟩
    have hne : 0 < (collectUserIds (e2 :: e1 :: rest)).length :=
      List.length_pos.mpr (List.ne_nil_of_mem hmem)
    refine ⟨enrichExpense (userMapLookup users) e2,
      enrichExpense (userMapLookup users) e1,
      rest.map (enrichExpense (userMapLookup users)), ?_,
      enrichExpense_core _ e2, enrichExpense_core _ e1, ?_⟩
    · simp [getGroupExpensesHandler, hpp, hgid, hq, hne, hb,
        populateUserDetails, enrichExpenses]
    · rw [List.map_map]
      exact List.map_congr_left (fun e _ => enrichExpense_core _ e)

/-- A second sample expense with a later timestamp than sampleExpense. -/
def sampleExpense2 : FinancialExpense :=
  ⟨"e2", "g1", "Taxi", "FOOD", "30", "2026-01-03T00:00:00Z", "u2", "",
   "PERCENTAGE", [⟨"u2", "100", User.zero⟩], User.zero, "u1",
   "2026-01-03T01:00:00Z", User.zero⟩

/-- Witness for C5: a concrete descending two-record store result. -/
theorem descending_order_passthrough_witness :
    (groupExpensesQueryInput "g1").scanIndexForward = some false ∧
    ∃ b2 b1 brest,
      (getGroupExpensesHandler [("groupId", "g1")]
          (fun _ => .ok [sampleExpense2, sampleExpense])
          (fun _ => .ok [sampleUser])).1 = .ok (b2 :: b1 :: brest) ∧
      b2.core = sampleExpense2.core ∧ b1.core = sampleExpense.core ∧
      brest.map FinancialExpense.core = List.map FinancialExpense.core [] :=
  descending_order_passthrough [("groupId", "g1")] "g1"
    (fun _ => .ok [sampleExpense2, sampleExpense]) (fun _ => .ok [sampleUser])
    [sampleUser] sampleExpense2 sampleExpense [] rfl (by decide) rfl rfl

/-- The expense record as written by PostGroupExpenseHandler lines 515-518:
the submitted body with exactly expenseId, groupId, createdBy and createdAt
overwritten. -/
def storedExpense (expense : FinancialExpense) (newUUID gid sub now : String) :
    FinancialExpense :=
  { expense with
    expenseID := newUUID
    groupID := gid
    createdBy := sub
    createdAt := now }

/-- Claim C4 counterexample: with a well-formed claims map that lacks the sub
key, PostGroupExpenseHandler does not return 403; the discarded
type-assertion flag makes sub the empty string, and the created record that
is both stored and echoed carries createdBy equal to the empty string. -/
theorem claims_sub_absent_cex :
    postGroupExpenseHandler (some []) [("groupId", "g1")] (some sampleExpense)
        "uuid-1" "2026-02-01T00:00:00Z" (fun _ => .ok ()) =
      .created (storedExpense sampleExpense "uuid-1" "g1" "" "2026-02-01T00:00:00Z") ∧
    (storedExpense sampleExpense "uuid-1" "g1" "" "2026-02-01T00:00:00Z").createdBy = "" :=
  ⟨rfl, rfl⟩

/-- Claim C4 amended: the handlers return 403 exactly when the claims
structure itself is absent or not a map; when the claims map is well-formed
but the sub field is absent, no 403 is raised and the empty-string subject
id propagates downstream, into the stored and echoed expense record of
PostGroupExpenseHandler and into the key condition of the GetGroupsHandler
store query. -/
theorem claims_extraction_amended :
    (∀ pp body newUUID now put,
      postGroupExpenseHandler none pp body newUUID now put =
        .errorResponse 403 "Unauthorized: Invalid claims format") ∧
    (∀ query, getGroupsHandler none query =
        .errorResponse 403 "Unauthorized: Invalid claims format") ∧
    (∀ cl pp gid expense newUUID now put,
      lookupString cl "sub" = none →
      lookupString pp "groupId" = some gid → gid ≠ "" →
      put (storedExpense expense newUUID gid "" now) = .ok () →
      postGroupExpenseHandler (some cl) pp (some expense) newUUID now put =
        .created (storedExpense expense newUUID gid "" now)) ∧
    (∀ cl query groupMembers,
      lookupString cl "sub" = none →
      query (groupsQueryInput "") = .ok groupMembers →
      getGroupsHandler (some cl) query = .ok groupMembers) := by
  refine ⟨fun pp body newUUID now put => rfl, fun query => rfl, ?_, ?_⟩
  · intro cl pp gid expense newUUID now put hsub hpp hgid hput
    simp [postGroupExpenseHandler, storedExpense, hsub, hpp, hgid] at hput ⊢
    simp [hput]
  · intro cl query groupMembers hsub hq
    simp [getGroupsHandler, hsub, hq]

/-- Witness for the amended C4 at concrete requests. -/
theorem claims_extraction_amended_witness :
    postGroupExpenseHandler none [] none "u" "t" (fun _ => .ok ()) =
      .errorResponse 403 "Unauthorized: Invalid claims format" ∧
    postGroupExpenseHandler (some []) [("groupId", "g1")] (some sampleExpense)
        "u" "t" (fun _ => .ok ()) =
      .created (storedExpense sampleExpense "u" "g1" "" "t") :=
  ⟨claims_extraction_amended.1 [] none "u" "t" (fun _ => .ok ()),
   claims_extraction_amended.2.2.1 [] [("groupId", "g1")] "g1" sampleExpense
     "u" "t" (fun _ => .ok ()) rfl rfl (by decide) rfl⟩

/-- Claim C10: on a valid create-expense request the handler overwrites
exactly expenseId, groupId, createdBy and createdAt, stores the result and
echoes it as the 201 body, while title, category, amount, dateTime, paidBy,
imageUrl, splitType and participants stay exactly as submitted. -/
theorem post_expense_frame
    (cl pp : List (String × String)) (sub gid : String)
    (expense : FinancialExpense) (newUUID now : String)
    (put : FinancialExpense → Except Unit Unit)
    (hsub : lookupString cl "sub" = some sub)
    (hpp : lookupString pp "groupId" = some gid) (hgid : gid ≠ "")
    (hput : put (storedExpense expense newUUID gid sub now) = .ok ()) :
    postGroupExpenseHandler (some cl) pp (some expense) newUUID now put =
      .created (storedExpense expense newUUID gid sub now) ∧
    (storedExpense expense newUUID gid sub now).title = expense.title ∧
    (storedExpense expense newUUID gid sub now).category = expense.category ∧
    (storedExpense expense newUUID gid sub now).amount = expense.amount ∧
    (storedExpense expense newUUID gid sub now).dateTime = expense.dateTime ∧
    (storedExpense expense newUUID gid sub now).paidBy = expense.paidBy ∧
    (storedExpense expense newUUID gid sub now).imageURL = expense.imageURL ∧
    (storedExpense expense newUUID gid sub now).splitType = expense.splitType ∧
    (storedExpense expense newUUID gid sub now).participants = expense.participants ∧
    (storedExpense expense newUUID gid sub now).expenseID = newUUID ∧
    (storedExpense expense newUUID gid sub now).groupID = gid ∧
    (storedExpense expense newUUID gid sub now).createdBy = sub ∧
    (storedExpense expense newUUID gid sub now).createdAt = now := by
  refine ⟨?_, rfl, rfl, rfl, rfl, rfl, rfl, rfl, rfl, rfl, rfl, rfl, rfl⟩
  simp [postGroupExpenseHandler, storedExpense, hsub, hpp, hgid] at hput ⊢
  simp [hput]

/-- Witness for C10 at a concrete request. -/
theorem post_expense_frame_witness :
    postGroupExpenseHandler (some [("sub", "user-9")]) [("groupId", "g1")]
        (some sampleExpense) "uuid-2" "2026-03-01T00:00:00Z" (fun _ => .ok ()) =
      .created (storedExpense sampleExpense "uuid-2" "g1" "user-9"
        "2026-03-01T00:00:00Z") :=
  (post_expense_frame [("sub", "user-9")] [("groupId", "g1")] "user-9" "g1"
    sampleExpense "uuid-2" "2026-03-01T00:00:00Z" (fun _ => .ok ())
    rfl rfl (by decide) rfl).1

/-! Router lemmas: the Serve loop and the path-parameter map. -/

/-- The request passed to the matched handler (api/api.go lines 45-53): the
original request with PathParameters replaced by the extracted variables. -/
def matchedRequest (route : Route) (request : APIRequest) : APIRequest :=
  { request with
    pathParameters := extractParams route.path.names (route.path.findStringSubmatch request.path) }

lemma serve_cons_match (route : Route) (rest : List Route) (request : APIRequest)
    (h : routeMatches route request) :
    serve (route :: rest) request = route.handler (matchedRequest route request) := by
  obtain ⟨hm, hl⟩ := h
  simp [serve, matchedRequest, hm, hl]

lemma serve_cons_not_match (route : Route) (rest : List Route) (request : APIRequest)
    (h : ¬ routeMatches route request) :
    serve (route :: rest) request = serve rest request := by
  by_cases hm : route.method = request.httpMethod
  · by_cases hl : 0 < (route.path.findStringSubmatch request.path).length
    · exact absurd ⟨hm, hl⟩ h
    · simp [serve, hm, hl]
  · simp [serve, hm]

lemma serve_eq_of_first_match :
    ∀ (routes : List Route) (request : APIRequest) (i : Nat) (hi : i < routes.length),
      routeMatches (routes.get ⟨i, hi⟩) request →
      (∀ j (hj : j < routes.length), j < i →
        ¬ routeMatches (routes.get ⟨j, hj⟩) request) →
      serve routes request =
        (routes.get ⟨i, hi⟩).handler (matchedRequest (routes.get ⟨i, hi⟩) request) := by
  intro routes
  induction routes with
  | nil =>
    intro request i hi
    exact absurd hi (by simp)
  | cons route rest ih =>
    intro request i hi hmatch hfirst
    cases i with
    | zero => exact serve_cons_match route rest request hmatch
    | succ j =>
      have hskip : ¬ routeMatches route request :=
        hfirst 0 (by simp) (Nat.succ_pos j)
      rw [serve_cons_not_match route rest request hskip]
      exact ih request j (Nat.lt_of_succ_lt_succ hi) hmatch
        (fun k hk hki => hfirst (k + 1) (Nat.succ_lt_succ hk) (Nat.succ_lt_succ hki))

lemma registerAll_eq (regs : List (String × GoRegexp × (APIRequest → APIResponse))) :
    registerAll regs = regs.map (fun reg => ⟨reg.1, reg.2.1, reg.2.2⟩) := by
  unfold registerAll
  suffices h : ∀ acc, regs.foldl (fun r reg => addRoute r reg.1 reg.2.1 reg.2.2) acc =
      acc ++ regs.map (fun reg => ⟨reg.1, reg.2.1, reg.2.2⟩) by
    simpa using h []
  induction regs with
  | nil => intro acc; simp
  | cons reg rest ih =>
    intro acc
    rw [List.foldl_cons, ih]
    simp [addRoute, List.append_assoc]

lemma mem_extractParamsAux (ms : List String) (name val : String) :
    ∀ (ns : List String) (i : Nat) (m : List (String × String)),
      ((name, val) ∈ extractParamsAux ms i ns m ↔
        (name, val) ∈ m ∨ ∃ k, k < ns.length ∧ i + k ≠ 0 ∧ name ≠ "" ∧
          ns.getD k "" = name ∧ ms.getD (i + k) "" = val) := by
  intro ns
  induction ns with
  | nil =>
    intro i m
    simp [extractParamsAux]
  | cons n rest ih =>
    intro i m
    rw [show extractParamsAux ms i (n :: rest) m =
      extractParamsAux ms (i + 1) rest
        (if i ≠ 0 ∧ n ≠ "" then (n, ms.getD i "") :: m else m) from rfl]
    rw [ih]
    constructor
    · rintro (hm | ⟨k, hk, hik, hname, hgd, hval⟩)
      · by_cases hc : i ≠ 0 ∧ n ≠ ""
        · rw [if_pos hc] at hm
          rcases List.mem_cons.mp hm with heq | hm2
          · have h1 : name = n := congrArg Prod.fst heq
            have h2 : val = ms.getD i "" := congrArg Prod.snd heq
            refine Or.inr ⟨0, by simp, by omega, h1 ▸ hc.2, by simpa using h1.symm, ?_⟩
            rw [Nat.add_zero]
            exact h2.symm
          · exact Or.inl hm2
        · rw [if_neg hc] at hm
          exact Or.inl hm
      · refine Or.inr ⟨k + 1, by simpa using Nat.succ_lt_succ hk, by omega, hname,
          by simpa using hgd, ?_⟩
        rw [show i + (k + 1) = i + 1 + k by omega]
        exact hval
    · rintro (hm | ⟨k, hk, hik, hname, hgd, hval⟩)
      · by_cases hc : i ≠ 0 ∧ n ≠ ""
        · rw [if_pos hc]
          exact Or.inl (List.mem_cons_of_mem _ hm)
        · rw [if_neg hc]
          exact Or.inl hm
      · cases k with
        | zero =>
          have hi0 : i ≠ 0 := by omega
          have hn : n = name := by simpa using hgd
          have hv : ms.getD i "" = val := by simpa using hval
          have hc : i ≠ 0 ∧ n ≠ "" := ⟨hi0, by rw [hn]; exact hname⟩
          rw [if_pos hc]
          refine Or.inl ?_
          rw [← hn, ← hv]
          exact List.mem_cons_self _ _
        | succ k2 =>
          refine Or.inr ⟨k2, by simpa using hk, by omega, hname,
            by simpa using hgd, ?_⟩
          rw [show i + 1 + k2 = i + (k2 + 1) by omega]
          exact hval

lemma mem_extractParams {names ms : List String} {name val : String} :
    (name, val) ∈ extractParams names ms ↔
      ∃ k, k < names.length ∧ k ≠ 0 ∧ name ≠ "" ∧
        names.getD k "" = name ∧ ms.getD k "" = val := by
  unfold extractParams
  rw [mem_extractParamsAux]
  simp

lemma lookupString_mem {l : List (String × String)} {name val : String}
    (h : lookupString l name = some val) : (name, val) ∈ l := by
  unfold lookupString at h
  cases hf : l.find? (fun p => p.1 == name) with
  | none => rw [hf] at h; cases h
  | some p =>
    rw [hf] at h
    have hp := List.find?_some hf
    have hm := List.mem_of_find?_eq_some hf
    cases p with
    | mk k v =>
      simp at h hp
      rw [← hp, ← h]
      exact hm

lemma lookupString_eq_some_of {l : List (String × String)} {name val : String}
    (hex : (name, val) ∈ l) (hall : ∀ v, (name, v) ∈ l → v = val) :
    lookupString l name = some val := by
  induction l with
  | nil => cases hex
  | cons p rest ih =>
    cases p with
    | mk k₀ v₀ =>
      by_cases hk : k₀ = name
      · have hv : v₀ = val := hall v₀ (by rw [hk]; exact List.mem_cons_self _ _)
        simp [lookupString, List.find?, hk, hv]
      · have hbeq : (k₀ == name) = false := by simp [hk]
        have hstep : lookupString ((k₀, v₀) :: rest) name = lookupString rest name := by
          simp [lookupString, List.find?, hbeq]
        rw [hstep]
        refine ih ?_ ?_
        · rcases List.mem_cons.mp hex with heq | hm
          · exact absurd (congrArg Prod.fst heq).symm hk
          · exact hm
        · exact fun v hv => hall v (List.mem_cons_of_mem _ hv)

/-- Claim C2: for any registration sequence, dispatch tries routes in
registration order and invokes the handler of the first registered route
whose verb equals the request verb and whose pattern matches the path,
regardless of any later route that would also match. -/
theorem route_first_match_wins
    (regs : List (String × GoRegexp × (APIRequest → APIResponse)))
    (request : APIRequest) (i : Nat) (hi : i < (registerAll regs).length)
    (hmatch : routeMatches ((registerAll regs).get ⟨i, hi⟩) request)
    (hfirst : ∀ j (hj : j < (registerAll regs).length), j < i →
      ¬ routeMatches ((registerAll regs).get ⟨j, hj⟩) request) :
    serve (registerAll regs) request =
      ((registerAll regs).get ⟨i, hi⟩).handler
        (matchedRequest ((registerAll regs).get ⟨i, hi⟩) request) :=
  serve_eq_of_first_match (registerAll regs) request i hi hmatch hfirst

/-- A sample compiled pattern with one named group, matching one path. -/
def samplePattern1 : GoRegexp :=
  ⟨["", "groupId"],
   fun p => if p = "/groups/g1/expenses" then ["/groups/g1/expenses", "g1"] else []⟩

/-- A second, more specific sample pattern matching the same path. -/
def samplePattern2 : GoRegexp :=
  ⟨[""],
   fun p => if p = "/groups/g1/expenses" then ["/groups/g1/expenses"] else []⟩

/-- Sample handlers distinguished by their response bodies. -/
def sampleHandlerA : APIRequest → APIResponse := fun _ => ⟨200, "A"⟩

/-- Second sample handler. -/
def sampleHandlerB : APIRequest → APIResponse := fun _ => ⟨200, "B"⟩

/-- A sample request matching both sample patterns. -/
def sampleRequest : APIRequest := ⟨"GET", "/groups/g1/expenses", [], ""⟩

/-- Witness for C2: two same-verb routes both match; the one registered
first, not the more specific second one, is dispatched. -/
theorem route_first_match_wins_witness :
    serve (registerAll [("GET", samplePattern1, sampleHandlerA),
        ("GET", samplePattern2, sampleHandlerB)]) sampleRequest = ⟨200, "A"⟩ := by
  have h := route_first_match_wins
    [("GET", samplePattern1, sampleHandlerA), ("GET", samplePattern2, sampleHandlerB)]
    sampleRequest 0 (by decide) (by decide)
    (fun j hj hj0 => absurd hj0 (Nat.not_lt_zero j))
  rw [h]
  rfl

/-- Claim C7: when exactly one registered route matches the verb and path,
dispatch invokes that handler with a path-variable map whose keys are
exactly the named capture groups (group 0 and unnamed groups excluded) and
whose values are the substrings those groups captured; the group-name
uniqueness hypothesis reflects that Go rejects duplicate capture names at
pattern compile time. -/
theorem dispatch_named_captures
    (regs : List (String × GoRegexp × (APIRequest → APIResponse)))
    (request : APIRequest) (i : Nat) (hi : i < (registerAll regs).length)
    (hmatch : routeMatches ((registerAll regs).get ⟨i, hi⟩) request)
    (huniq : ∀ j (hj : j < (registerAll regs).length),
      routeMatches ((registerAll regs).get ⟨j, hj⟩) request → j = i)
    (hnames : ∀ k₁ k₂,
      k₁ < ((registerAll regs).get ⟨i, hi⟩).path.names.length →
      k₂ < ((registerAll regs).get ⟨i, hi⟩).path.names.length →
      ((registerAll regs).get ⟨i, hi⟩).path.names.getD k₁ "" ≠ "" →
      ((registerAll regs).get ⟨i, hi⟩).path.names.getD k₁ "" =
        ((registerAll regs).get ⟨i, hi⟩).path.names.getD k₂ "" → k₁ = k₂) :
    serve (registerAll regs) request =
      ((registerAll regs).get ⟨i, hi⟩).handler
        (matchedRequest ((registerAll regs).get ⟨i, hi⟩) request) ∧
    (∀ name val,
      lookupString (matchedRequest ((registerAll regs).get ⟨i, hi⟩) request).pathParameters
          name = some val ↔
        name ≠ "" ∧ ∃ k, k ≠ 0 ∧
          k < ((registerAll regs).get ⟨i, hi⟩).path.names.length ∧
          ((registerAll regs).get ⟨i, hi⟩).path.names.getD k "" = name ∧
          (((registerAll regs).get ⟨i, hi⟩).path.findStringSubmatch request.path).getD
            k "" = val) := by
  constructor
  · refine serve_eq_of_first_match (registerAll regs) request i hi hmatch ?_
    intro j hj hji hm
    exact absurd (huniq j hj hm) (by omega)
  · intro name val
    show lookupString (extractParams _ _) name = some val ↔ _
    constructor
    · intro h
      obtain ⟨k, hk, hk0, hname, hgd, hval⟩ := mem_extractParams.mp (lookupString_mem h)
      exact ⟨hname, k, hk0, hk, hgd, hval⟩
    · rintro ⟨hname, k, hk0, hk, hgd, hval⟩
      refine lookupString_eq_some_of (mem_extractParams.mpr ⟨k, hk, hk0, hname, hgd, hval⟩) ?_
      intro v hv
      obtain ⟨k₂, hk₂, hk₂0, _, hgd₂, hval₂⟩ := mem_extractParams.mp hv
      have hkk : k₂ = k := hnames k₂ k hk₂ hk (by rw [hgd₂]; exact hname) (by rw [hgd₂, hgd])
      rw [← hval, ← hval₂, hkk]

/-- Witness for C7: the single sample route matches and the variable map
binds exactly the named group groupId to the captured substring. -/
theorem dispatch_named_captures_witness :
    serve (registerAll [("GET", samplePattern1, sampleHandlerA)]) sampleRequest =
      ⟨200, "A"⟩ ∧
    lookupString (matchedRequest
        ((registerAll [("GET", samplePattern1, sampleHandlerA)]).get
          ⟨0, by decide⟩) sampleRequest).pathParameters "groupId" = some "g1" := by
  have h := dispatch_named_captures [("GET", samplePattern1, sampleHandlerA)]
    sampleRequest 0 (by decide) (by decide)
    (fun j hj _ => Nat.lt_one_iff.mp hj)
    (by
      intro k₁ k₂ h1 h2 hne heq
      have hl1 : k₁ < 2 := h1
      have hl2 : k₂ < 2 := h2
      interval_cases k₁ <;> interval_cases k₂ <;> revert hne heq <;> decide)
  constructor
  · rw [h.1]
    rfl
  · exact (h.2 "groupId" "g1").mpr ⟨by decide, 1, by decide, by decide, rfl, rfl⟩

/-- Claim C8: a route whose verb differs from the request verb is skipped
with its handler not invoked, dispatch continuing down the list; and when no
registered route matches both verb and pattern, dispatch answers the 404
Not Found response, never a 405. -/
theorem verb_mismatch_skip_and_not_found :
    (∀ (route : Route) (rest : List Route) (request : APIRequest),
      route.method ≠ request.httpMethod →
      serve (route :: rest) request = serve rest request) ∧
    (∀ (routes : List Route) (request : APIRequest),
      (∀ route ∈ routes, ¬ routeMatches route request) →
      serve routes request = createErrorResponse 404 "Not Found") := by
  constructor
  · intro route rest request h
    simp [serve, h]
  · intro routes request
    induction routes with
    | nil => intro h; rfl
    | cons route rest ih =>
      intro h
      rw [serve_cons_not_match route rest request (h route (List.mem_cons_self _ _))]
      exact ih (fun r hr => h r (List.mem_cons_of_mem _ hr))

/-- Witness for C8: a wrong-verb route whose pattern matches the path is
skipped, and with only that route registered the dispatch is 404. -/
theorem verb_mismatch_skip_and_not_found_witness :
    serve [⟨"POST", samplePattern1, sampleHandlerB⟩] sampleRequest =
      serve [] sampleRequest ∧
    serve [⟨"POST", samplePattern1, sampleHandlerB⟩] sampleRequest =
      createErrorResponse 404 "Not Found" := by
  constructor
  · exact verb_mismatch_skip_and_not_found.1 ⟨"POST", samplePattern1, sampleHandlerB⟩
      [] sampleRequest (by decide)
  · refine verb_mismatch_skip_and_not_found.2 [⟨"POST", samplePattern1, sampleHandlerB⟩]
      sampleRequest ?_
    intro r hr
    rw [List.mem_singleton.mp hr]
    decide

end Vassistant
